import Mathlib

/-!
Verification of the SeekStorm server API-endpoint layer
(`src/seekstorm_server/api_endpoints.rs`).

The layer manages tenant accounts ("apikey" objects) keyed by a credential
hash, a per-account registry of indices keyed by index id, and thin wrappers
around an external indexing/search engine.  The engine itself (seekstorm
crate) is an external collaborator: its entry points enter the model either
as function-valued fields of `EngineIndex` (`get_file`, `get_document`) or
as explicit function parameters (flush, document mutation, search).

Rust `HashMap`s are modelled as association lists; `HashMap::insert`
replaces any existing entry with the same key, `remove` deletes it.
Machine integers (`u64`, `u128`, `usize`) are modelled as `Nat`: none of
the verified endpoints perform arithmetic that could overflow (id
allocation increments past present ids, counts are collection sizes).
-/

namespace SeekStorm

/-- A document handed to / returned by the engine: a mapping from field name
to a field value; values are opaque to this layer and carried as `Nat`
payloads (the endpoints never inspect them, only insert `_id`/`_score`). -/
abbrev Document := List (String × Nat)

/-- `IndexMetaObject`: the per-index metadata the endpoints read
(`meta.id`, `meta.name`); similarity, tokenizer and access type are opaque
to the verified endpoints and omitted. -/
structure IndexMetaObject where
  id : Nat
  name : String

/-- The engine index state visible to this layer.  `indexed_doc_count`,
`stored_field_names`, `schema_map`, `meta` and the facets map are fields the
endpoints read; `get_file` and `get_document` are engine entry points,
carried as function values since the engine is out of scope.
`get_document`'s highlighter / field-projection / distance-field arguments
only shape the returned field content and are absorbed into the function
value; its explicit arguments are the document id and the realtime flag,
the two the endpoints vary. -/
structure EngineIndex where
  meta : IndexMetaObject
  indexed_doc_count : Nat
  stored_field_names : List String
  schema_map : List (String × Nat)
  facets_minmax : List (String × Nat)
  get_file : Nat → Except String (List Nat)
  get_document : Nat → Bool → Except String Document

/-- The quota configuration attached to an account; opaque to this layer
(only stored and persisted), carried as a `Nat` payload. -/
abbrev ApikeyQuotaObject := Nat

/-- `ApikeyObject`: one tenant account: id, credential hash, quota, and the
account's index registry (`HashMap<u64, IndexArc>` in the source). -/
structure ApikeyObject where
  id : Nat
  apikey_hash : Nat
  quota : ApikeyQuotaObject
  index_list : List (Nat × EngineIndex)

/-- The server's account registry, `HashMap<u128, ApikeyObject>` keyed by
credential hash, as an association list. -/
abbrev ApikeyList := List (Nat × ApikeyObject)

/-- Keys of an association-list map. -/
def hm_keys (l : List (Nat × α)) : List Nat := l.map Prod.fst

/-- `HashMap::get`. -/
def hm_lookup (k : Nat) (l : List (Nat × α)) : Option α :=
  (l.find? (fun p => p.1 == k)).map Prod.snd

/-- `HashMap::remove`. -/
def hm_remove (k : Nat) (l : List (Nat × α)) : List (Nat × α) :=
  l.filter (fun p => p.1 != k)

/-- `HashMap::insert`: replaces any existing entry with the same key. -/
def hm_insert (k : Nat) (v : α) (l : List (Nat × α)) : List (Nat × α) :=
  (k, v) :: hm_remove k l

/-- The id-allocation scan shared by `create_apikey_api` (lines 160-169) and
`create_index_api` (lines 276-283): walk the present ids in ascending order;
each id equal to the running candidate bumps the candidate past it, the
first larger id stops the scan. -/
def alloc_scan : Nat → List Nat → Nat
  | cur, [] => cur
  | cur, x :: xs => if x = cur then alloc_scan (x + 1) xs else cur

/-- Id allocation: the source sorts the present ids ascending
(`sort_by(id)` / `keys().sorted()`) and runs the scan from 0; the sort is
modelled by `insertionSort`, which yields the same (unique) ascending
arrangement of `Nat`s. -/
def alloc_id (ids : List Nat) : Nat :=
  alloc_scan 0 (List.insertionSort (· ≤ ·) ids)

/-- `create_apikey_api`: allocate the smallest-unused-id candidate by the
sorted scan over the registered accounts' ids, build the `ApikeyObject`
(fresh empty index list), register it under its credential hash.  The
credential hash is `calculate_hash(apikey)` in the source; the hash value is
taken as the argument here.  Directory creation and `save_apikey_data` are
filesystem effects, modelled separately by `save_file_atomically`.  The
source returns a mutable reference into the map; the model returns the
inserted object together with the updated registry. -/
def create_apikey_api (apikey_hash_u128 : Nat) (quota : ApikeyQuotaObject)
    (apikey_list : ApikeyList) : ApikeyObject × ApikeyList :=
  let apikey_id := alloc_id (apikey_list.map (fun p => p.2.id))
  let apikey_object : ApikeyObject :=
    { id := apikey_id
      apikey_hash := apikey_hash_u128
      quota := quota
      index_list := [] }
  (apikey_object, hm_insert apikey_hash_u128 apikey_object apikey_list)

/-- `delete_apikey_api`: look up by credential hash; absent hash returns the
error "not found" with the registry untouched; otherwise remove the entry
(and the account's directory tree, a filesystem effect) and return
`apikey_list.len()` after removal.  The pair carries the registry state
after the call. -/
def delete_apikey_api (apikey_list : ApikeyList) (apikey_hash : Nat) :
    Except String Nat × ApikeyList :=
  match hm_lookup apikey_hash apikey_list with
  | some _ =>
      let l := hm_remove apikey_hash apikey_list
      (.ok l.length, l)
  | none => (.error "not found", apikey_list)

/-- `create_index_api`: allocate the smallest-unused-id candidate by the
sorted scan over the account's index ids, create the index directory
(filesystem effect), invoke the engine's `create_index` — modelled by the
`engine_create` parameter, given the allocated id and the request's name and
schema — and register the handle.  Returns the allocated id and the updated
account. -/
def create_index_api (index_name : String) (schema : List (String × Nat))
    (engine_create : Nat → String → List (String × Nat) → EngineIndex)
    (apikey_object : ApikeyObject) : Nat × ApikeyObject :=
  let index_id := alloc_id (hm_keys apikey_object.index_list)
  let index := engine_create index_id index_name schema
  (index_id,
    { apikey_object with index_list := hm_insert index_id index apikey_object.index_list })

/-- `delete_index_api`: absent id returns the error "index_id not found"
with the registry untouched; otherwise the engine's `delete_index` runs
under the write guard (an effect on the discarded handle), the entry is
removed, and `index_list.len()` after removal is returned. -/
def delete_index_api (index_id : Nat) (index_list : List (Nat × EngineIndex)) :
    Except String Nat × List (Nat × EngineIndex) :=
  match hm_lookup index_id index_list with
  | some _ =>
      let l := hm_remove index_id index_list
      (.ok l.length, l)
  | none => (.error "index_id not found", index_list)

/-- `commit_index_api`: read `indexed_doc_count` under the read guard, drop
the guard, run the engine's `commit` (the `flush` parameter), and return the
count captured before the flush.  The pair carries the index state after the
flush. -/
def commit_index_api (flush : EngineIndex → EngineIndex) (index : EngineIndex) :
    EngineIndex × Except String Nat :=
  let indexed_doc_count := index.indexed_doc_count
  (flush index, .ok indexed_doc_count)

/-- `close_index_api`: capture the count, run the engine's `close_index`
(the `close` parameter), return the captured count. -/
def close_index_api (close : EngineIndex → EngineIndex) (index : EngineIndex) :
    EngineIndex × Except String Nat :=
  let indexed_doc_count := index.indexed_doc_count
  (close index, .ok indexed_doc_count)

/-! ### Document mutation endpoints (§4.4)

Each endpoint delegates one engine call under the write guard and then
reads `indexed_doc_count` from the index; the engine call enters as a
function parameter (`EngineIndex → payload → EngineIndex`). -/

/-- `index_document_api`: run the engine's `index_document`, then return
`index_arc.read().await.indexed_doc_count` — the count after the call. -/
def index_document_api (engine_index_document : EngineIndex → Document → EngineIndex)
    (index : EngineIndex) (document : Document) : EngineIndex × Except String Nat :=
  let index' := engine_index_document index document
  (index', .ok index'.indexed_doc_count)

/-- `index_documents_api`: one engine batch call for the whole vector, then
the count after the batch. -/
def index_documents_api (engine_index_documents : EngineIndex → List Document → EngineIndex)
    (index : EngineIndex) (document_vec : List Document) : EngineIndex × Except String Nat :=
  let index' := engine_index_documents index document_vec
  (index', .ok index'.indexed_doc_count)

/-- `update_document_api`: engine update of one (id, document) pair, then
the post-call count. -/
def update_document_api (engine_update_document : EngineIndex → Nat × Document → EngineIndex)
    (index : EngineIndex) (id_document : Nat × Document) : EngineIndex × Except String Nat :=
  let index' := engine_update_document index id_document
  (index', .ok index'.indexed_doc_count)

/-- `update_documents_api`: one engine batch update, then the post-batch
count. -/
def update_documents_api
    (engine_update_documents : EngineIndex → List (Nat × Document) → EngineIndex)
    (index : EngineIndex) (id_document_vec : List (Nat × Document)) :
    EngineIndex × Except String Nat :=
  let index' := engine_update_documents index id_document_vec
  (index', .ok index'.indexed_doc_count)

/-- `delete_document_api`: engine delete of one document id, then the
post-call count. -/
def delete_document_api (engine_delete_document : EngineIndex → Nat → EngineIndex)
    (index : EngineIndex) (document_id : Nat) : EngineIndex × Except String Nat :=
  let index' := engine_delete_document index document_id
  (index', .ok index'.indexed_doc_count)

/-- `delete_documents_api`: one engine batch delete, then the post-batch
count. -/
def delete_documents_api (engine_delete_documents : EngineIndex → List Nat → EngineIndex)
    (index : EngineIndex) (document_id_vec : List Nat) : EngineIndex × Except String Nat :=
  let index' := engine_delete_documents index document_id_vec
  (index', .ok index'.indexed_doc_count)

/-! ### Search (§4.5) -/

/-- `SearchRequestObject`: the request fields the verified endpoints read.
Highlight specs, distance fields, facet requests/filters, sort specs and
the query-type default are passed through to engine calls unchanged and are
carried as opaque `Nat` payloads. -/
structure SearchRequestObject where
  query_string : String
  offset : Nat
  length : Nat
  realtime : Bool
  highlights : List Nat
  field_filter : List String
  fields : List String
  distance_fields : List Nat
  query_facets : List Nat
  facet_filter : List Nat
  result_sort : List Nat
  query_type_default : Nat

/-- One raw ranked hit from the engine's `search`: internal document id and
relevance score (an `f32` in the engine, carried opaquely as `Nat`: the
endpoints never compute with it, only copy it into `_score`). -/
structure SearchHit where
  doc_id : Nat
  score : Nat

/-- The engine's `search` result: raw ranked hits, total matching count,
resolved query terms, facet aggregates (aggregates opaque). -/
structure ResultObject where
  results : List SearchHit
  result_count_total : Nat
  query_terms : List String
  facets : List (String × Nat)

/-- `SearchResultObject`: the response assembled by `query_index_api`. -/
structure SearchResultObject where
  time : Nat
  query : String
  offset : Nat
  length : Nat
  count : Nat
  count_total : Nat
  query_terms : List String
  results : List Document
  facets : List (String × Nat)
  suggestions : List String

/-- `delete_documents_by_query_api`: one engine `delete_documents_by_query`
call with the request's query parameters, then the post-call count. -/
def delete_documents_by_query_api
    (engine_delete_by_query : EngineIndex → SearchRequestObject → EngineIndex)
    (index : EngineIndex) (search_request : SearchRequestObject) :
    EngineIndex × Except String Nat :=
  let index' := engine_delete_by_query index search_request
  (index', .ok index'.indexed_doc_count)

/-- `query_index_api`: run the engine's `search` (the `search` parameter;
the wall clock yielding `elapsed_time` is also external).  If the index
stores field content, hydrate each raw hit in rank order through
`get_document` with the request's realtime flag, dropping hydration
failures silently, and insert the synthetic `_id` and `_score` fields;
otherwise the hydrated list stays empty.  Assemble the response: `count` is
`result_object.results.len()` — the raw hit-list length — and `count_total`
is the engine's total; the suggestion list is always empty. -/
def query_index_api (search : SearchRequestObject → ResultObject)
    (elapsed_time : Nat) (index : EngineIndex)
    (search_request : SearchRequestObject) : SearchResultObject :=
  let result_object := search search_request
  let results : List Document :=
    if index.stored_field_names.isEmpty then []
    else
      result_object.results.filterMap (fun result =>
        match index.get_document result.doc_id search_request.realtime with
        | .ok doc => some (doc ++ [("_id", result.doc_id), ("_score", result.score)])
        | .error _ => none)
  { query := search_request.query_string
    time := elapsed_time
    offset := search_request.offset
    length := search_request.length
    count := result_object.results.length
    count_total := result_object.result_count_total
    query_terms := result_object.query_terms
    results := results
    facets := result_object.facets
    suggestions := [] }

/-- `GetDocumentRequest`: query terms and highlight specs (consumed by the
highlighter, whose output only shapes field content and is absorbed into
`EngineIndex.get_document`), field projection and distance fields. -/
structure GetDocumentRequest where
  query_terms : List String
  highlights : List Nat
  fields : List String
  distance_fields : List Nat

/-- `get_file_api`: when the index retains stored content
(`stored_field_names` non-empty), forward the engine's `get_file` result,
mapping an engine error to `none`; otherwise `none`. -/
def get_file_api (index : EngineIndex) (document_id : Nat) : Option (List Nat) :=
  if !index.stored_field_names.isEmpty then
    match index.get_file document_id with
    | .ok doc => some doc
    | .error _ => none
  else
    none

/-- `get_document_api`: when the index retains stored content, hydrate the
single id through `get_document` with realtime `true`, mapping an engine
error to `none`; otherwise `none`.  The request only feeds the highlighter
and the field projection (absorbed into the engine function). -/
def get_document_api (index : EngineIndex) (document_id : Nat)
    (_get_document_request : GetDocumentRequest) : Option Document :=
  if !index.stored_field_names.isEmpty then
    match index.get_document document_id true with
    | .ok doc => some doc
    | .error _ => none
  else
    none

/-! ### Stats endpoints -/

/-- The crate version string baked into stats responses; its value is
external to this layer and immaterial to the verified properties. -/
def VERSION : String := "version"

/-- `IndexResponseObject`: the stats payload for one index. -/
structure IndexResponseObject where
  id : Nat
  name : String
  schema : List (String × Nat)
  indexed_doc_count : Nat
  operations_count : Nat
  query_count : Nat
  version : String
  facets_minmax : List (String × Nat)

/-- `get_index_stats_api`: for a registered id, assemble the stats payload —
`operations_count` and `query_count` are the literal constants 0 in the
source; absent ids give the error "index_id not found". -/
def get_index_stats_api (index_id : Nat) (index_list : List (Nat × EngineIndex)) :
    Except String IndexResponseObject :=
  match hm_lookup index_id index_list with
  | some index =>
      .ok { version := VERSION
            schema := index.schema_map
            id := index.meta.id
            name := index.meta.name
            indexed_doc_count := index.indexed_doc_count
            operations_count := 0
            query_count := 0
            facets_minmax := index.facets_minmax }
  | none => .error "index_id not found"

/-- `get_all_index_stats_api`: unconditionally `Err("err")` in the source —
the endpoint is unimplemented. -/
def get_all_index_stats_api (_index_list : List (Nat × EngineIndex)) :
    Except String (List IndexResponseObject) :=
  .error "err"

/-! ### Startup recovery (§4.1 `recoverAll`) -/

/-- Result of `fs::read_to_string` on one account directory's `apikey.json`:
`.ok` carries the file's text, `.error` a read failure (file missing or
unreadable). -/
abbrev ReadResult := Except Unit String

/-- `open_apikey`: read the metadata file.  On read success the source runs
`serde_json::from_str(&apikey_string).unwrap()` — a readable but unparsable
file panics, modelled as `none` (the whole scan aborts); on parse success
the account is registered (its `index_list` is filled by
`open_all_indices`, an engine-side directory scan absorbed into the parsed
object) and `true` is returned.  A read failure returns `false` with the
registry untouched.  `parse` models `serde_json::from_str`. -/
def open_apikey (parse : String → Option ApikeyObject) (read_result : ReadResult)
    (apikey_list : ApikeyList) : Option (ApikeyList × Bool) :=
  match read_result with
  | .ok apikey_string =>
      match parse apikey_string with
      | some apikey_object =>
          some (hm_insert apikey_object.apikey_hash apikey_object apikey_list, true)
      | none => none
  | .error _ => some (apikey_list, false)

/-- `open_all_apikeys`: fold `open_apikey` over the root's subdirectory
entries (one `ReadResult` per subdirectory), or-accumulating the per-entry
flags into `test_index_flag`; a panic (`none`) from any entry aborts the
whole scan.  Returns the final registry and whether at least one account
was recovered. -/
def open_all_apikeys (parse : String → Option ApikeyObject)
    (entries : List ReadResult) (apikey_list : ApikeyList) :
    Option (ApikeyList × Bool) :=
  match entries with
  | [] => some (apikey_list, false)
  | e :: rest =>
      match open_apikey parse e apikey_list with
      | some (l, flag) =>
          match open_all_apikeys parse rest l with
          | some (l2, flag2) => some (l2, flag || flag2)
          | none => none
      | none => none

/-! ### Atomic metadata persistence (§6, `save_file_atomically`) -/

/-- A filesystem path, split as `PathBuf` sees it: stem of the final
component plus extension.  `set_extension` replaces the extension. -/
structure FPath where
  stem : String
  ext : String
deriving DecidableEq

/-- `PathBuf::set_extension`: replace the extension of the final
component. -/
def set_extension (p : FPath) (ext : String) : FPath :=
  { p with ext := ext }

/-- Filesystem contents: path to file content, `none` when absent. -/
abbrev FsState := FPath → Option String

/-- Writing one whole file at `p`. -/
def fs_update (fs : FsState) (p : FPath) (content : String) : FsState :=
  fun q => if q = p then some content else fs q

/-- The filesystem states observable while `fs::write(&temp_path, content)`
runs: an interruption mid-write leaves the temp path holding an arbitrary
prefix of the content. -/
def write_states (fs : FsState) (p : FPath) (content : String) : List FsState :=
  (List.range (content.length + 1)).map (fun k => fs_update fs p (content.take k))

/-- `save_file_atomically`: derive the temp path by `set_extension("bak")`,
write the full content there, then `fs::rename(temp, path)` — attempted
exactly once; `Err` is only printed (the reported message), never retried.
`rename_ok` is the rename outcome.  Returns the trace of observable
filesystem states (initial state, the mid-write states, the state after the
write, and — on rename success — the state after the atomic rename) and the
reported error, if any. -/
def save_file_atomically (fs : FsState) (path : FPath) (content : String)
    (rename_ok : Bool) : List FsState × Option String :=
  let temp_path := set_extension path "bak"
  let after_write := fs_update fs temp_path content
  let after_rename :=
    fs_update (fun q => if q = temp_path then none else after_write q) path content
  if rename_ok then
    (fs :: (write_states fs temp_path content ++ [after_write, after_rename]), none)
  else
    (fs :: (write_states fs temp_path content ++ [after_write]), some "error")

/-- `save_apikey_data`: serialize the account (`serde_json::to_string`,
modelled by the `serialize` parameter) and save it atomically at
`root/{accountId}/apikey.json`. -/
def save_apikey_data (serialize : ApikeyObject → String) (fs : FsState)
    (apikey : ApikeyObject) (rename_ok : Bool) : List FsState × Option String :=
  let apikey_persistence_path : FPath :=
    { stem := toString apikey.id ++ "/apikey", ext := "json" }
  save_file_atomically fs apikey_persistence_path (serialize apikey) rename_ok

/-! ### Account-lifecycle sequences (for the registry invariant) -/

/-- One account-lifecycle API call: `create_apikey_api` with a given
credential hash and quota, or `delete_apikey_api` with a given hash. -/
inductive ApiOp where
  | create (apikey_hash : Nat) (quota : ApikeyQuotaObject)
  | delete (apikey_hash : Nat)

/-- Run a sequence of account-lifecycle calls against a registry. -/
def run_ops : List ApiOp → ApikeyList → ApikeyList
  | [], l => l
  | .create h q :: rest, l => run_ops rest (create_apikey_api h q l).2
  | .delete h :: rest, l => run_ops rest (delete_apikey_api l h).2

/-! ### Concrete sample instances (used to instantiate the theorems) -/

/-- A sample engine index with three indexed documents and one stored
field; its engine entry points fail (document not found). -/
def sample_index : EngineIndex :=
  { meta := { id := 0, name := "idx" }
    indexed_doc_count := 3
    stored_field_names := ["title"]
    schema_map := [("title", 0)]
    facets_minmax := []
    get_file := fun _ => .error "e"
    get_document := fun _ _ => .error "e" }

/-- A sample engine index whose engine entry points succeed. -/
def sample_index_ok : EngineIndex :=
  { meta := { id := 1, name := "idx2" }
    indexed_doc_count := 3
    stored_field_names := ["title"]
    schema_map := [("title", 0)]
    facets_minmax := []
    get_file := fun _ => .ok [7]
    get_document := fun _ _ => .ok [("title", 9)] }

/-- A sample account with id `i` and credential hash `100 + i`. -/
def sample_account (i : Nat) : ApikeyObject :=
  { id := i, apikey_hash := 100 + i, quota := 0, index_list := [] }

/-- A registry holding three accounts with ids 0, 1, 2. -/
def sample_registry : ApikeyList :=
  [(100, sample_account 0), (101, sample_account 1), (102, sample_account 2)]

/-- A sample search request: offset 0, length 10. -/
def sample_request : SearchRequestObject :=
  { query_string := "q", offset := 0, length := 10, realtime := false
    highlights := [], field_filter := [], fields := [], distance_fields := []
    query_facets := [], facet_filter := [], result_sort := [], query_type_default := 0 }

/-- An engine index that matches documents but whose `get_document` fails
for every id (the underlying document was deleted after matching): every
hydration is silently dropped. -/
def dropping_index : EngineIndex :=
  { meta := { id := 0, name := "idx" }
    indexed_doc_count := 1
    stored_field_names := ["title"]
    schema_map := [("title", 0)]
    facets_minmax := []
    get_file := fun _ => .error "e"
    get_document := fun _ _ => .error "document deleted" }

/-- An engine search returning one raw ranked hit and total count 1. -/
def one_hit_search : SearchRequestObject → ResultObject :=
  fun _ =>
    { results := [{ doc_id := 0, score := 7 }]
      result_count_total := 1
      query_terms := ["q"]
      facets := [] }

/-- A sample `serde_json::from_str` model: the strings "a" and "b" parse to
two distinct accounts; everything else is corrupt (parse failure). -/
def sample_parse : String → Option ApikeyObject :=
  fun s =>
    if s = "a" then some (sample_account 0)
    else if s = "b" then some (sample_account 1)
    else none

/-- The empty filesystem. -/
def fs_empty : FsState := fun _ => none

/-- A sample `GetDocumentRequest` with no highlights or projections. -/
def sample_get_request : GetDocumentRequest :=
  { query_terms := [], highlights := [], fields := [], distance_fields := [] }

/-! ### Helper lemmas: id allocation -/

/-- The scan over a strictly sorted list whose elements all sit at or above
the running candidate returns the least value `≥ c` missing from the
list. -/
theorem alloc_scan_spec :
    ∀ (l : List Nat), l.Sorted (· < ·) →
      ∀ c, (∀ y ∈ l, c ≤ y) →
        c ≤ alloc_scan c l ∧ alloc_scan c l ∉ l ∧
          ∀ m, c ≤ m → m < alloc_scan c l → m ∈ l := by
  intro l
  induction l with
  | nil =>
      intro _ c _
      refine ⟨le_refl c, by simp [alloc_scan], ?_⟩
      intro m hcm hmc
      simp [alloc_scan] at hmc
      exact absurd hmc (not_lt_of_le hcm)
  | cons x xs ih =>
      intro hs c hc
      have hx : c ≤ x := hc x (List.mem_cons_self _ _)
      have hsx : ∀ y ∈ xs, x < y := (List.sorted_cons.mp hs).1
      have hxs : xs.Sorted (· < ·) := (List.sorted_cons.mp hs).2
      by_cases hxc : x = c
      · subst hxc
        have hxs' : ∀ y ∈ xs, x + 1 ≤ y := fun y hy => Nat.succ_le_of_lt (hsx y hy)
        obtain ⟨h1, h2, h3⟩ := ih hxs (x + 1) hxs'
        have heq : alloc_scan x (x :: xs) = alloc_scan (x + 1) xs := by
          simp [alloc_scan]
        refine ⟨?_, ?_, ?_⟩
        · rw [heq]; exact le_trans (Nat.le_succ x) h1
        · rw [heq]
          intro hmem
          rcases List.mem_cons.mp hmem with h | h
          · exact absurd (h ▸ h1) (by simp [h])
          · exact h2 h
        · intro m hcm hmlt
          rw [heq] at hmlt
          rcases Nat.eq_or_lt_of_le hcm with h | h
          · exact List.mem_cons.mpr (Or.inl h.symm)
          · exact List.mem_cons.mpr (Or.inr (h3 m h hmlt))
      · have heq : alloc_scan c (x :: xs) = c := by
          simp [alloc_scan, hxc]
        refine ⟨le_of_eq heq.symm, ?_, ?_⟩
        · rw [heq]
          intro hmem
          rcases List.mem_cons.mp hmem with h | h
          · exact hxc h.symm
          · exact absurd hx (not_le_of_lt (hsx c h))
        · intro m hcm hmlt
          rw [heq] at hmlt
          exact absurd hmlt (not_lt_of_le hcm)

/-- `alloc_id` returns the smallest non-negative integer not present in the
given (duplicate-free) id list. -/
theorem alloc_id_spec (ids : List Nat) (h : ids.Nodup) :
    alloc_id ids ∉ ids ∧ ∀ m < alloc_id ids, m ∈ ids := by
  have hperm : List.Perm (List.insertionSort (· ≤ ·) ids) ids :=
    List.perm_insertionSort _ ids
  have hnd : (List.insertionSort (· ≤ ·) ids).Nodup := (hperm.nodup_iff).mpr h
  have hsle : (List.insertionSort (· ≤ ·) ids).Sorted (· ≤ ·) :=
    List.sorted_insertionSort _ ids
  have hslt : (List.insertionSort (· ≤ ·) ids).Sorted (· < ·) := hsle.lt_of_le hnd
  obtain ⟨_, h2, h3⟩ :=
    alloc_scan_spec (List.insertionSort (· ≤ ·) ids) hslt 0 (fun y _ => Nat.zero_le y)
  constructor
  · intro hmem
    exact h2 (hperm.mem_iff.mpr hmem)
  · intro m hm
    exact hperm.mem_iff.mp (h3 m (Nat.zero_le m) hm)

/-! ### Helper lemmas: association-list maps -/

theorem hm_keys_remove {α : Type} (k : Nat) (l : List (Nat × α)) :
    hm_keys (hm_remove k l) = (hm_keys l).filter (fun x => x != k) := by
  simp only [hm_keys, hm_remove]
  rw [List.filter_map]
  rfl

theorem not_mem_keys_remove {α : Type} (k : Nat) (l : List (Nat × α)) :
    k ∉ hm_keys (hm_remove k l) := by
  rw [hm_keys_remove]
  intro hmem
  have := List.of_mem_filter hmem
  simp at this

theorem keys_nodup_remove {α : Type} (k : Nat) (l : List (Nat × α))
    (h : (hm_keys l).Nodup) : (hm_keys (hm_remove k l)).Nodup := by
  rw [hm_keys_remove]
  exact h.filter _

theorem keys_nodup_insert {α : Type} (k : Nat) (v : α) (l : List (Nat × α))
    (h : (hm_keys l).Nodup) : (hm_keys (hm_insert k v l)).Nodup := by
  have : hm_keys (hm_insert k v l) = k :: hm_keys (hm_remove k l) := rfl
  rw [this]
  exact List.nodup_cons.mpr ⟨not_mem_keys_remove k l, keys_nodup_remove k l h⟩

theorem hm_lookup_eq_none_iff {α : Type} (k : Nat) (l : List (Nat × α)) :
    hm_lookup k l = none ↔ k ∉ hm_keys l := by
  simp only [hm_lookup, Option.map_eq_none', List.find?_eq_none, hm_keys,
    List.mem_map]
  constructor
  · rintro h ⟨p, hp, hpk⟩
    exact absurd (by simpa using hpk : (p.1 == k) = true) (h p hp)
  · intro h p hp hpk
    exact h ⟨p, hp, by simpa using hpk⟩

theorem hm_lookup_insert_self {α : Type} (k : Nat) (v : α) (l : List (Nat × α)) :
    hm_lookup k (hm_insert k v l) = some v := by
  simp [hm_lookup, hm_insert, List.find?]

theorem hm_remove_length_of_mem {α : Type} (k : Nat) (l : List (Nat × α))
    (hnd : (hm_keys l).Nodup) (hmem : k ∈ hm_keys l) :
    (hm_remove k l).length + 1 = l.length := by
  induction l with
  | nil => simp [hm_keys] at hmem
  | cons a t ih =>
      have hcons : hm_keys (a :: t) = a.1 :: hm_keys t := rfl
      have hnd' : a.1 ∉ hm_keys t ∧ (hm_keys t).Nodup :=
        List.nodup_cons.mp (hcons ▸ hnd)
      by_cases hak : a.1 = k
      · have hrest : hm_remove k (a :: t) = t := by
          simp only [hm_remove, List.filter_cons]
          rw [if_neg (by simp [hak])]
          apply List.filter_eq_self.mpr
          intro p hp
          have : p.1 ∈ hm_keys t := List.mem_map.mpr ⟨p, hp, rfl⟩
          have hpk : p.1 ≠ k := fun hk => hnd'.1 (hak ▸ hk ▸ this)
          simpa using hpk
        simp [hrest]
      · have hkt : k ∈ hm_keys t := by
          rcases (by simpa [hm_keys] using hmem : k = a.1 ∨ k ∈ hm_keys t) with h | h
          · exact absurd h.symm hak
          · exact h
        have hrest : hm_remove k (a :: t) = a :: hm_remove k t := by
          simp only [hm_remove, List.filter_cons]
          rw [if_pos (by simpa using hak)]
        rw [hrest]
        simp only [List.length_cons]
        rw [ih hnd'.2 hkt]

theorem filter_key_length_le_one {α : Type} (k : Nat) (l : List (Nat × α))
    (h : (hm_keys l).Nodup) : (l.filter (fun p => p.1 == k)).length ≤ 1 := by
  induction l with
  | nil => simp
  | cons a t ih =>
      have hcons : hm_keys (a :: t) = a.1 :: hm_keys t := rfl
      obtain ⟨ha, ht⟩ := List.nodup_cons.mp (hcons ▸ h)
      by_cases hak : a.1 = k
      · have hnil : t.filter (fun p => p.1 == k) = [] := by
          apply List.filter_eq_nil_iff.mpr
          intro p hp hpk
          have hpk' : p.1 = k := by simpa using hpk
          exact ha (List.mem_map.mpr ⟨p, hp, by rw [hpk', hak]⟩)
        simp [List.filter_cons, hak, hnil]
      · simpa [List.filter_cons, hak] using ih ht

theorem filter_insert_self {α : Type} (k : Nat) (v : α) (l : List (Nat × α)) :
    (hm_insert k v l).filter (fun p => p.1 == k) = [(k, v)] := by
  simp only [hm_insert, hm_remove, List.filter_cons, List.filter_filter]
  rw [if_pos (by simp)]
  have hnil : l.filter (fun a => (a.1 == k) && (a.1 != k)) = [] := by
    apply List.filter_eq_nil_iff.mpr
    intro p _ hp
    by_cases h : p.1 = k <;> simp [h] at hp
  rw [hnil]

theorem run_ops_keys_nodup (ops : List ApiOp) :
    ∀ l : ApikeyList, (hm_keys l).Nodup → (hm_keys (run_ops ops l)).Nodup := by
  induction ops with
  | nil => intro l h; exact h
  | cons op rest ih =>
      intro l h
      cases op with
      | create hh qq =>
          exact ih _ (keys_nodup_insert hh _ l h)
      | delete hh =>
          refine ih _ ?_
          cases h' : hm_lookup hh l with
          | some v => simpa [delete_apikey_api, h'] using keys_nodup_remove hh l h
          | none => simpa [delete_apikey_api, h'] using h

/-! ### Claim theorems -/

/-- C2: `commit_index_api` captures the indexed-document count immediately
before the engine flush, performs the flush, and returns the pre-flush
count; whenever the flush changes the count, the returned value is not the
post-flush count. -/
theorem commit_returns_preflush_count (flush : EngineIndex → EngineIndex)
    (index : EngineIndex) :
    (commit_index_api flush index).2 = .ok index.indexed_doc_count ∧
    (commit_index_api flush index).1 = flush index ∧
    ((flush index).indexed_doc_count ≠ index.indexed_doc_count →
      (commit_index_api flush index).2 ≠ .ok (flush index).indexed_doc_count) := by
  refine ⟨rfl, rfl, ?_⟩
  intro hne heq
  have heq' : index.indexed_doc_count = (flush index).indexed_doc_count := by
    simpa [commit_index_api] using heq
  exact hne heq'.symm

/-- Witness for C2: with 3 documents indexed and a flush that bumps the
count to 4, commit returns 3, not 4. -/
theorem commit_returns_preflush_count_witness :
    (commit_index_api (fun i => { i with indexed_doc_count := i.indexed_doc_count + 1 })
        sample_index).2 = Except.ok 3 ∧
    (commit_index_api (fun i => { i with indexed_doc_count := i.indexed_doc_count + 1 })
        sample_index).2 ≠ Except.ok 4 := by
  have h := commit_returns_preflush_count
    (fun i => { i with indexed_doc_count := i.indexed_doc_count + 1 }) sample_index
  exact ⟨h.1, h.2.2 (by decide)⟩

/-- C6: every document-mutation endpoint delegates one engine call (one
combined call for a batch) and returns the indexed-document count read from
the state after that call; when the call changes the count, the returned
value is not the pre-operation count. -/
theorem mutation_returns_post_count
    (f1 : EngineIndex → Document → EngineIndex)
    (f2 : EngineIndex → List Document → EngineIndex)
    (f3 : EngineIndex → Nat × Document → EngineIndex)
    (f4 : EngineIndex → List (Nat × Document) → EngineIndex)
    (f5 : EngineIndex → Nat → EngineIndex)
    (f6 : EngineIndex → List Nat → EngineIndex)
    (f7 : EngineIndex → SearchRequestObject → EngineIndex)
    (index : EngineIndex) (doc : Document) (docs : List Document)
    (idd : Nat × Document) (idds : List (Nat × Document))
    (did : Nat) (dids : List Nat) (req : SearchRequestObject) :
    index_document_api f1 index doc =
      (f1 index doc, .ok (f1 index doc).indexed_doc_count) ∧
    index_documents_api f2 index docs =
      (f2 index docs, .ok (f2 index docs).indexed_doc_count) ∧
    update_document_api f3 index idd =
      (f3 index idd, .ok (f3 index idd).indexed_doc_count) ∧
    update_documents_api f4 index idds =
      (f4 index idds, .ok (f4 index idds).indexed_doc_count) ∧
    delete_document_api f5 index did =
      (f5 index did, .ok (f5 index did).indexed_doc_count) ∧
    delete_documents_api f6 index dids =
      (f6 index dids, .ok (f6 index dids).indexed_doc_count) ∧
    delete_documents_by_query_api f7 index req =
      (f7 index req, .ok (f7 index req).indexed_doc_count) ∧
    ((f1 index doc).indexed_doc_count ≠ index.indexed_doc_count →
      (index_document_api f1 index doc).2 ≠ .ok index.indexed_doc_count) := by
  refine ⟨rfl, rfl, rfl, rfl, rfl, rfl, rfl, ?_⟩
  intro hne heq
  have heq' : (f1 index doc).indexed_doc_count = index.indexed_doc_count := by
    simpa [index_document_api] using heq
  exact hne heq'

/-- Witness for C6: indexing one document into a 3-document index with an
engine that bumps the count returns 4 (the post-operation count), not 3. -/
theorem mutation_returns_post_count_witness :
    (index_document_api (fun i _ => { i with indexed_doc_count := i.indexed_doc_count + 1 })
        sample_index []).2 = Except.ok 4 ∧
    (index_document_api (fun i _ => { i with indexed_doc_count := i.indexed_doc_count + 1 })
        sample_index []).2 ≠ Except.ok 3 := by
  have h := mutation_returns_post_count
    (fun i _ => { i with indexed_doc_count := i.indexed_doc_count + 1 })
    (fun i _ => i) (fun i _ => i) (fun i _ => i) (fun i _ => i) (fun i _ => i)
    (fun i _ => i) sample_index [] [] (0, []) [] 0 [] sample_request
  exact ⟨h.1 ▸ rfl, h.2.2.2.2.2.2.2 (by decide)⟩

/-- C7: `get_file_api` and `get_document_api` return `none` when the index
retains no stored field content, and `none` on an engine-level lookup
error; they return the payload exactly when stored content exists and the
engine resolves the id. -/
theorem get_absent_behavior (index : EngineIndex) (document_id : Nat)
    (req : GetDocumentRequest) :
    (index.stored_field_names = [] →
      get_file_api index document_id = none ∧
      get_document_api index document_id req = none) ∧
    (∀ e, index.get_file document_id = .error e →
      get_file_api index document_id = none) ∧
    (∀ e, index.get_document document_id true = .error e →
      get_document_api index document_id req = none) ∧
    (index.stored_field_names ≠ [] → ∀ b, index.get_file document_id = .ok b →
      get_file_api index document_id = some b) ∧
    (index.stored_field_names ≠ [] → ∀ d, index.get_document document_id true = .ok d →
      get_document_api index document_id req = some d) := by
  refine ⟨?_, ?_, ?_, ?_, ?_⟩
  · intro hsf
    constructor <;> simp [get_file_api, get_document_api, hsf]
  · intro e he
    cases hsf : index.stored_field_names with
    | nil => simp [get_file_api, hsf]
    | cons a t => simp [get_file_api, hsf, he]
  · intro e he
    cases hsf : index.stored_field_names with
    | nil => simp [get_document_api, hsf]
    | cons a t => simp [get_document_api, hsf, he]
  · intro hsf b hb
    cases hsf' : index.stored_field_names with
    | nil => exact absurd hsf' hsf
    | cons a t => simp [get_file_api, hsf', hb]
  · intro hsf d hd
    cases hsf' : index.stored_field_names with
    | nil => exact absurd hsf' hsf
    | cons a t => simp [get_document_api, hsf', hd]

/-- Witness for C7: a failing engine lookup yields `none`; a succeeding
lookup on an index with stored content yields the payload. -/
theorem get_absent_behavior_witness :
    get_file_api sample_index 0 = none ∧
    get_document_api sample_index 0 sample_get_request = none ∧
    get_file_api sample_index_ok 0 = some [7] ∧
    get_document_api sample_index_ok 0 sample_get_request = some [("title", 9)] := by
  have h1 := get_absent_behavior sample_index 0 sample_get_request
  have h2 := get_absent_behavior sample_index_ok 0 sample_get_request
  exact ⟨h1.2.1 "e" rfl, h1.2.2.1 "e" rfl,
    h2.2.2.2.1 (by decide) [7] rfl, h2.2.2.2.2 (by decide) [("title", 9)] rfl⟩

/-- C10: the list-all-index-stats endpoint unconditionally returns an
error, while the single-index stats endpoint succeeds for a registered
index id, always reporting `operations_count = 0` and `query_count = 0`. -/
theorem stats_endpoints_behavior (index_list : List (Nat × EngineIndex))
    (index_id : Nat) (index : EngineIndex)
    (h : hm_lookup index_id index_list = some index) :
    get_all_index_stats_api index_list = .error "err" ∧
    get_index_stats_api index_id index_list =
      .ok { version := VERSION
            schema := index.schema_map
            id := index.meta.id
            name := index.meta.name
            indexed_doc_count := index.indexed_doc_count
            operations_count := 0
            query_count := 0
            facets_minmax := index.facets_minmax } ∧
    ∀ r, get_index_stats_api index_id index_list = .ok r →
      r.operations_count = 0 ∧ r.query_count = 0 := by
  refine ⟨rfl, by simp [get_index_stats_api, h], ?_⟩
  intro r hr
  simp only [get_index_stats_api, h] at hr
  cases hr
  exact ⟨rfl, rfl⟩

/-- Witness for C10: a one-index registry; its stats report zero
operations and queries, and the list-all endpoint errors out. -/
theorem stats_endpoints_behavior_witness :
    get_all_index_stats_api [(0, sample_index)] = Except.error "err" ∧
    ∀ r, get_index_stats_api 0 [(0, sample_index)] = Except.ok r →
      r.operations_count = 0 ∧ r.query_count = 0 := by
  have h := stats_endpoints_behavior [(0, sample_index)] 0 sample_index rfl
  exact ⟨h.1, h.2.2⟩

/-- C1: with duplicate-free ids in the respective registry,
`create_apikey_api` allocates the smallest non-negative integer absent from
the accounts' ids, and `create_index_api` the smallest non-negative integer
absent from the account's index ids. -/
theorem create_allocates_smallest_unused_id (apikey_hash : Nat)
    (quota : ApikeyQuotaObject) (apikey_list : ApikeyList)
    (index_name : String) (schema : List (String × Nat))
    (engine_create : Nat → String → List (String × Nat) → EngineIndex)
    (apikey_object : ApikeyObject)
    (hA : (apikey_list.map (fun p => p.2.id)).Nodup)
    (hI : (hm_keys apikey_object.index_list).Nodup) :
    ((create_apikey_api apikey_hash quota apikey_list).1.id ∉
        apikey_list.map (fun p => p.2.id) ∧
      ∀ m < (create_apikey_api apikey_hash quota apikey_list).1.id,
        m ∈ apikey_list.map (fun p => p.2.id)) ∧
    ((create_index_api index_name schema engine_create apikey_object).1 ∉
        hm_keys apikey_object.index_list ∧
      ∀ m < (create_index_api index_name schema engine_create apikey_object).1,
        m ∈ hm_keys apikey_object.index_list) := by
  have h1 := alloc_id_spec (apikey_list.map (fun p => p.2.id)) hA
  have h2 := alloc_id_spec (hm_keys apikey_object.index_list) hI
  exact ⟨⟨h1.1, h1.2⟩, ⟨h2.1, h2.2⟩⟩

/-- Witness for C1: from accounts with ids 0, 1, 2, deleting the account
with id 2 (hash 102) and creating a new one yields id 2, not 3, and 2 is
the smallest unused id of the shrunken registry. -/
theorem create_allocates_smallest_unused_id_witness :
    (delete_apikey_api sample_registry 102).1 = Except.ok 2 ∧
    (create_apikey_api 103 0 (delete_apikey_api sample_registry 102).2).1.id = 2 ∧
    (2 : Nat) ∉ (delete_apikey_api sample_registry 102).2.map (fun p => p.2.id) ∧
    ∀ m < (create_apikey_api 103 0 (delete_apikey_api sample_registry 102).2).1.id,
      m ∈ (delete_apikey_api sample_registry 102).2.map (fun p => p.2.id) := by
  have h := create_allocates_smallest_unused_id 103 0
    (delete_apikey_api sample_registry 102).2 "n" []
    (fun _ _ _ => sample_index) (sample_account 0) (by decide) (by decide)
  refine ⟨rfl, rfl, ?_, h.1.2⟩
  have h2 : (create_apikey_api 103 0 (delete_apikey_api sample_registry 102).2).1.id = 2 :=
    rfl
  exact h2 ▸ h.1.1

/-- C5: deleting an absent credential hash (resp. index id) returns the
not-found error with the registry untouched; deleting a present one
deregisters exactly that entry and returns the number of entries remaining
after removal. -/
theorem delete_notfound_or_remaining (apikey_list : ApikeyList) (apikey_hash : Nat)
    (index_list : List (Nat × EngineIndex)) (index_id : Nat)
    (hA : (hm_keys apikey_list).Nodup) (hI : (hm_keys index_list).Nodup) :
    (apikey_hash ∉ hm_keys apikey_list →
      delete_apikey_api apikey_list apikey_hash = (.error "not found", apikey_list)) ∧
    (apikey_hash ∈ hm_keys apikey_list →
      delete_apikey_api apikey_list apikey_hash =
        (.ok (hm_remove apikey_hash apikey_list).length,
          hm_remove apikey_hash apikey_list) ∧
      apikey_hash ∉ hm_keys (hm_remove apikey_hash apikey_list) ∧
      (hm_remove apikey_hash apikey_list).length + 1 = apikey_list.length) ∧
    (index_id ∉ hm_keys index_list →
      delete_index_api index_id index_list = (.error "index_id not found", index_list)) ∧
    (index_id ∈ hm_keys index_list →
      delete_index_api index_id index_list =
        (.ok (hm_remove index_id index_list).length, hm_remove index_id index_list) ∧
      index_id ∉ hm_keys (hm_remove index_id index_list) ∧
      (hm_remove index_id index_list).length + 1 = index_list.length) := by
  refine ⟨?_, ?_, ?_, ?_⟩
  · intro habs
    have hnone : hm_lookup apikey_hash apikey_list = none :=
      (hm_lookup_eq_none_iff apikey_hash apikey_list).mpr habs
    simp [delete_apikey_api, hnone]
  · intro hmem
    cases hl : hm_lookup apikey_hash apikey_list with
    | none =>
        exact absurd hmem ((hm_lookup_eq_none_iff apikey_hash apikey_list).mp hl)
    | some v =>
        exact ⟨by simp [delete_apikey_api, hl],
          not_mem_keys_remove apikey_hash apikey_list,
          hm_remove_length_of_mem apikey_hash apikey_list hA hmem⟩
  · intro habs
    have hnone : hm_lookup index_id index_list = none :=
      (hm_lookup_eq_none_iff index_id index_list).mpr habs
    simp [delete_index_api, hnone]
  · intro hmem
    cases hl : hm_lookup index_id index_list with
    | none =>
        exact absurd hmem ((hm_lookup_eq_none_iff index_id index_list).mp hl)
    | some v =>
        exact ⟨by simp [delete_index_api, hl],
          not_mem_keys_remove index_id index_list,
          hm_remove_length_of_mem index_id index_list hI hmem⟩

/-- Witness for C5: deleting hash 102 from the three-account registry
returns 2 remaining; deleting the absent hash 999 errors and leaves the
registry unchanged; same pattern for the one-index registry. -/
theorem delete_notfound_or_remaining_witness :
    delete_apikey_api sample_registry 999 = (Except.error "not found", sample_registry) ∧
    (delete_apikey_api sample_registry 102).1 = Except.ok 2 ∧
    (hm_remove 102 sample_registry).length + 1 = sample_registry.length ∧
    delete_index_api 5 [(0, sample_index)] =
      (Except.error "index_id not found", [(0, sample_index)]) ∧
    (delete_index_api 0 [(0, sample_index)]).1 = Except.ok 0 := by
  have h := delete_notfound_or_remaining sample_registry 999 [(0, sample_index)] 5
    (by decide) (by decide)
  have h' := delete_notfound_or_remaining sample_registry 102 [(0, sample_index)] 0
    (by decide) (by decide)
  refine ⟨h.1 (by decide), ?_, (h'.2.1 (by decide)).2.2, h.2.2.1 (by decide), ?_⟩
  · rw [(h'.2.1 (by decide)).1]; rfl
  · rw [(h'.2.2.2 (by decide)).1]; rfl

/-- C9: starting from the empty registry, after any sequence of
account-create and account-delete calls each credential hash maps to at
most one account (registry keys stay duplicate-free); and a create call
leaves exactly one entry for its hash — the newly created account — even
when the hash was already registered. -/
theorem registry_hash_unique (ops : List ApiOp) (apikey_hash : Nat)
    (quota : ApikeyQuotaObject) :
    (hm_keys (run_ops ops [])).Nodup ∧
    (∀ k, ((run_ops ops []).filter (fun p => p.1 == k)).length ≤ 1) ∧
    ((create_apikey_api apikey_hash quota (run_ops ops [])).2.filter
        (fun p => p.1 == apikey_hash)) =
      [(apikey_hash, (create_apikey_api apikey_hash quota (run_ops ops [])).1)] ∧
    hm_lookup apikey_hash (create_apikey_api apikey_hash quota (run_ops ops [])).2 =
      some (create_apikey_api apikey_hash quota (run_ops ops [])).1 := by
  have hnd : (hm_keys (run_ops ops [])).Nodup :=
    run_ops_keys_nodup ops [] (by simp [hm_keys])
  refine ⟨hnd, fun k => filter_key_length_le_one k _ hnd, ?_, ?_⟩
  · exact filter_insert_self apikey_hash _ _
  · exact hm_lookup_insert_self apikey_hash _ _

/-- C3 counterexample: with one raw engine hit whose hydration fails (the
underlying document was deleted after matching), the response reports
`count = 1` while the hydrated results list is empty — the returned-count
field does not equal the number of hydrated documents after silent drops. -/
theorem count_field_counterexample :
    ¬ ((query_index_api one_hit_search 5 dropping_index sample_request).count =
        (query_index_api one_hit_search 5 dropping_index sample_request).results.length) := by
  decide

/-- C3 amended: the returned-count field equals the length of the raw
ranked hit list produced by the engine, before hydration; the hydrated
results list is never longer than that (silent hydration drops shorten it
without shrinking the count); assuming the engine returns at most `length`
raw hits, the count does not exceed the requested length; `count_total`
echoes the engine's total matching count and may exceed the returned
count. -/
theorem count_is_raw_hit_count (search : SearchRequestObject → ResultObject)
    (elapsed_time : Nat) (index : EngineIndex) (req : SearchRequestObject)
    (hlen : (search req).results.length ≤ req.length) :
    (query_index_api search elapsed_time index req).count =
      (search req).results.length ∧
    (query_index_api search elapsed_time index req).results.length ≤
      (query_index_api search elapsed_time index req).count ∧
    (query_index_api search elapsed_time index req).count ≤ req.length ∧
    (query_index_api search elapsed_time index req).count_total =
      (search req).result_count_total := by
  refine ⟨rfl, ?_, hlen, rfl⟩
  show (if index.stored_field_names.isEmpty then ([] : List Document)
    else (search req).results.filterMap _).length ≤ (search req).results.length
  by_cases hsf : index.stored_field_names.isEmpty
  · simp [hsf]
  · simp only [hsf, if_neg, Bool.false_eq_true, not_false_eq_true, if_false]
    exact List.length_filterMap_le _ _

/-- Witness for C3 amended: one raw hit, hydration dropped — the response
has count 1, an empty results list, count_total 1, and count within the
requested length 10. -/
theorem count_is_raw_hit_count_witness :
    (query_index_api one_hit_search 5 dropping_index sample_request).count = 1 ∧
    (query_index_api one_hit_search 5 dropping_index sample_request).results.length ≤ 1 ∧
    (query_index_api one_hit_search 5 dropping_index sample_request).count ≤ 10 ∧
    (query_index_api one_hit_search 5 dropping_index sample_request).count_total = 1 := by
  have h := count_is_raw_hit_count one_hit_search 5 dropping_index sample_request
    (by decide)
  exact ⟨h.1, h.2.1, h.2.2.1, h.2.2.2⟩

/-- C4: the startup scan's handling of a bad account metadata file.  With
three account directories whose metadata files read successfully but where
the middle one is corrupt (unparsable), the scan panics
(`serde_json::from_str(..).unwrap()`), modelled as `none` — it does not
skip the entry and register the other two.  By contrast, when the middle
entry fails at the read stage, the scan skips it, registers exactly the two
valid accounts, and returns `true` (at least one account recovered). -/
theorem recovery_scan_panic_on_corrupt_metadata :
    open_all_apikeys sample_parse [.ok "a", .ok "corrupt", .ok "b"] [] = none ∧
    open_all_apikeys sample_parse [.ok "a", .error (), .ok "b"] [] =
      some ([(101, sample_account 1), (100, sample_account 0)], true) := by
  constructor <;> rfl

/-- C8: `save_file_atomically` writes the full content to the sibling
`.bak` path (distinct from any target whose own extension is not "bak"),
then renames it over the target in one atomic step: in every observable
filesystem state of the trace the target path holds either its previous
content or the complete new content — never a proper prefix.  A rename
failure is reported ("error") and leaves the target untouched in every
state; the rename is never retried, so on failure no later state shows the
new content at the target. -/
theorem atomic_write_never_partial (fs : FsState) (path : FPath) (content : String)
    (rename_ok : Bool) (hext : path.ext ≠ "bak") :
    set_extension path "bak" ≠ path ∧
    (∀ s ∈ (save_file_atomically fs path content rename_ok).1,
      s path = fs path ∨ s path = some content) ∧
    (rename_ok = false →
      (save_file_atomically fs path content rename_ok).2 = some "error" ∧
      ∀ s ∈ (save_file_atomically fs path content rename_ok).1, s path = fs path) ∧
    (rename_ok = true →
      (save_file_atomically fs path content rename_ok).2 = none ∧
      ∃ s ∈ (save_file_atomically fs path content rename_ok).1,
        s path = some content) := by
  have htemp : set_extension path "bak" ≠ path := by
    intro h
    exact hext (congrArg FPath.ext h).symm
  have hpt : path ≠ set_extension path "bak" := fun h => htemp h.symm
  have hupd : ∀ c, fs_update fs (set_extension path "bak") c path = fs path := by
    intro c
    simp [fs_update, hpt]
  have hwrite : ∀ s ∈ write_states fs (set_extension path "bak") content,
      s path = fs path := by
    intro s hs
    obtain ⟨k, _, hk⟩ := List.mem_map.mp hs
    rw [← hk]
    exact hupd _
  refine ⟨htemp, ?_, ?_, ?_⟩
  · intro s hs
    cases rename_ok with
    | false =>
        have hs2 : s ∈ fs :: (write_states fs (set_extension path "bak") content ++
            [fs_update fs (set_extension path "bak") content]) := hs
        rcases List.mem_cons.mp hs2 with h | h
        · exact Or.inl (h ▸ rfl)
        · rcases List.mem_append.mp h with h' | h'
          · exact Or.inl (hwrite s h')
          · have : s = fs_update fs (set_extension path "bak") content := by
              simpa using h'
            exact Or.inl (this ▸ hupd content)
    | true =>
        have hs2 : s ∈ fs :: (write_states fs (set_extension path "bak") content ++
            [fs_update fs (set_extension path "bak") content,
              fs_update
                (fun q => if q = set_extension path "bak" then none
                  else fs_update fs (set_extension path "bak") content q)
                path content]) := hs
        rcases List.mem_cons.mp hs2 with h | h
        · exact Or.inl (h ▸ rfl)
        · rcases List.mem_append.mp h with h' | h'
          · exact Or.inl (hwrite s h')
          · rcases (by simpa using h' :
                s = fs_update fs (set_extension path "bak") content ∨
                s = fs_update
                  (fun q => if q = set_extension path "bak" then none
                    else fs_update fs (set_extension path "bak") content q)
                  path content) with h'' | h''
            · exact Or.inl (h'' ▸ hupd content)
            · refine Or.inr ?_
              rw [h'']
              simp [fs_update]
  · intro hro
    subst hro
    refine ⟨rfl, ?_⟩
    intro s hs
    have hs2 : s ∈ fs :: (write_states fs (set_extension path "bak") content ++
        [fs_update fs (set_extension path "bak") content]) := hs
    rcases List.mem_cons.mp hs2 with h | h
    · exact h ▸ rfl
    · rcases List.mem_append.mp h with h' | h'
      · exact hwrite s h'
      · have : s = fs_update fs (set_extension path "bak") content := by
          simpa using h'
        exact this ▸ hupd content
  · intro hro
    subst hro
    refine ⟨rfl, ?_⟩
    refine ⟨fs_update
      (fun q => if q = set_extension path "bak" then none
        else fs_update fs (set_extension path "bak") content q) path content, ?_, ?_⟩
    · simp [save_file_atomically]
    · simp [fs_update]

/-- Witness for C8: writing "ab" over `apikey.json` in the empty
filesystem with a succeeding rename: the temp path is distinct, every
trace state shows the target absent or holding the full "ab", and the full
content becomes visible. -/
theorem atomic_write_never_partial_witness :
    set_extension ⟨"apikey", "json"⟩ "bak" ≠ (⟨"apikey", "json"⟩ : FPath) ∧
    (∀ s ∈ (save_file_atomically fs_empty ⟨"apikey", "json"⟩ "ab" true).1,
      s ⟨"apikey", "json"⟩ = fs_empty ⟨"apikey", "json"⟩ ∨
      s ⟨"apikey", "json"⟩ = some "ab") ∧
    (∃ s ∈ (save_file_atomically fs_empty ⟨"apikey", "json"⟩ "ab" true).1,
      s ⟨"apikey", "json"⟩ = some "ab") := by
  have h := atomic_write_never_partial fs_empty ⟨"apikey", "json"⟩ "ab" true
    (by decide)
  exact ⟨h.1, h.2.1, (h.2.2.2 rfl).2⟩

end SeekStorm
